import Mathlib

/-!
Verification of the chart-generation pipeline in `generate_charts.py`.

The script loads a CSV into a pandas DataFrame, lowercases column labels,
drops duplicate rows, coerces the `year` column to nullable integers,
attempts numeric coercion of the remaining object columns, filters to the
rows whose `gender` value is the aggregate sentinel, enriches the surviving
rows with a continent looked up from the country name, and finally feeds the
result to two Altair chart builders (a scatter chart and a bubble chart with
a year slider).

The embedding below models a DataFrame as a header (list of column labels)
plus a list of rows, each row a list of cell values.  A cell value is null
(NaN / None / pandas NA), a string, a rational number (modelling the floats
produced by `pd.to_numeric`; the numeric strings in play are short decimal
literals, which rationals represent exactly), or an integer (modelling the
nullable `Int64` dtype).  Fallible pandas operations (`KeyError` on a
missing column, the unsafe `astype('Int64')` cast, `years[0]` on an empty
list) are modelled with `Except`.
-/

/-- A cell of the DataFrame: null (NaN/None/NA), a string, a float
(modelled as an exact rational), or a nullable-Int64 integer. -/
inductive Value where
  | vNull : Value
  | vStr : String → Value
  | vNum : ℚ → Value
  | vInt : ℤ → Value
deriving DecidableEq, Repr

/-- A DataFrame: column labels plus rows of cells. -/
structure Table where
  header : List String
  rows : List (List Value)
deriving DecidableEq, Repr

/-- Errors of the pipeline: `KeyError` for a missing column, the pandas
`TypeError` raised by an unsafe `astype('Int64')` cast, the `IndexError`
of indexing an empty list, and a `TypeError` for sorting non-integers. -/
inductive PipeError where
  | keyError : String → PipeError
  | castError : PipeError
  | indexError : PipeError
  | typeError : PipeError
deriving DecidableEq, Repr

/-- `true` exactly on string cells; a pandas column whose dtype is `object`
is one that still holds string values. -/
def Value.isStr : Value → Bool
  | .vStr _ => true
  | _ => false

/-! ### Numeric string parsing, modelling `pd.to_numeric` on a single cell

`pd.to_numeric` parses decimal literals with an optional sign and an
optional fractional part.  We model that grammar (without exponents or
surrounding whitespace, which the data at hand does not use). -/

/-- Value of a nonempty all-digit character list, `none` otherwise. -/
def digitsVal : List Char → Option ℕ
  | [] => none
  | cs =>
    cs.foldl
      (fun acc c =>
        match acc with
        | none => none
        | some n => if c.isDigit then some (n * 10 + (c.toNat - 48)) else none)
      (some 0)

/-- Split a character list at the first dot: the characters before it and,
if a dot is present, the characters after it. -/
def splitDot : List Char → List Char × Option (List Char)
  | [] => ([], none)
  | c :: rest =>
    if c = '.' then ([], some rest)
    else
      let p := splitDot rest
      (c :: p.1, p.2)

/-- Construct the reduced rational `n / d` by explicit gcd cancellation.
This computes the same value as `mkRat` (see `ratNormalize_eq_mkRat`), but
by kernel-reducible arithmetic, so that concrete runs of the pipeline can
be checked with `decide`. -/
def ratNormalize (n : ℤ) (d : ℕ) : ℚ :=
  if h : d / Nat.gcd n.natAbs d ≠ 0 ∧
      Nat.gcd (n / (Nat.gcd n.natAbs d : ℤ)).natAbs (d / Nat.gcd n.natAbs d) = 1 then
    Rat.mk' (n / (Nat.gcd n.natAbs d : ℤ)) (d / Nat.gcd n.natAbs d) h.1 h.2
  else 0

/-- Parse an unsigned decimal literal, e.g. `2010`, `2010.0`, `70.5`: a
literal with `k` fraction digits denotes `(intPart * 10 ^ k + fracPart) / 10 ^ k`. -/
def parseUnsigned (cs : List Char) : Option ℚ :=
  match splitDot cs with
  | (a, none) => (digitsVal a).map (fun n => (n : ℚ))
  | (a, some b) =>
    match digitsVal a, digitsVal b with
    | some n, some f => some (ratNormalize ((n * 10 ^ b.length + f : ℕ) : ℤ) (10 ^ b.length))
    | _, _ => none

/-- Parse a signed decimal literal, the way `pd.to_numeric` reads a
string cell. -/
def parseNum (s : String) : Option ℚ :=
  match s.data with
  | '-' :: rest => (parseUnsigned rest).map (fun q => -q)
  | '+' :: rest => parseUnsigned rest
  | _ => parseUnsigned s.data

/-! ### List helpers shared by the pipeline stages -/

/-- Fuelled helper for `dedupFirst`; the fuel only makes the recursion
structural (each step filters the tail, which does not grow), so that the
function evaluates by kernel reduction. -/
def dedupFirstFuel {α : Type} [DecidableEq α] : ℕ → List α → List α
  | _, [] => []
  | 0, _ :: _ => []
  | fuel + 1, a :: l => a :: dedupFirstFuel fuel (l.filter (fun b => decide (b ≠ a)))

/-- Remove duplicates keeping the first occurrence of each element, as
`DataFrame.drop_duplicates()` does. -/
def dedupFirst {α : Type} [DecidableEq α] (l : List α) : List α :=
  dedupFirstFuel l.length l

/-- Index of the first occurrence of `a`, used to state that
`drop_duplicates` keeps first occurrences in order. -/
def firstIdx {α : Type} [DecidableEq α] (a : α) : List α → ℕ
  | [] => 0
  | b :: l => if b = a then 0 else firstIdx a l + 1

/-- Effectful map over a list in the `Option` monad, written out so that
its equations are directly available to proofs. -/
def mapMo {α β : Type} (f : α → Option β) : List α → Option (List β)
  | [] => some []
  | a :: l =>
    match f a, mapMo f l with
    | some b, some bs => some (b :: bs)
    | _, _ => none

/-- Effectful map over a list in the `Except PipeError` monad. -/
def mapME {α β : Type} (f : α → Except PipeError β) : List α → Except PipeError (List β)
  | [] => .ok []
  | a :: l =>
    match f a with
    | .error e => .error e
    | .ok b =>
      match mapME f l with
      | .error e => .error e
      | .ok bs => .ok (b :: bs)

/-- The `j`-th column of a list of rows (a missing cell reads as null). -/
def getCol (j : ℕ) (rows : List (List Value)) : List Value :=
  rows.map (fun r => r.getD j .vNull)

/-- Overwrite the `j`-th column of a list of rows with the given values. -/
def setCol (j : ℕ) (vals : List Value) (rows : List (List Value)) : List (List Value) :=
  List.zipWith (fun r v => r.set j v) rows vals

/-- Insert into a sorted list of integers, for modelling Python `sorted`. -/
def insertSorted (x : ℤ) : List ℤ → List ℤ
  | [] => [x]
  | y :: l => if x ≤ y then x :: y :: l else y :: insertSorted x l

/-- Sort a list of integers ascending, modelling Python `sorted`. -/
def sortInts (l : List ℤ) : List ℤ :=
  l.foldr insertSorted []

/-! ### The pipeline, stage by stage, from `generate_charts.py` -/

/-- `clean_col` (lines 10-12): lowercase the column label.  Python
`str.lower`, restricted to the ASCII labels used by this dataset, is
per-character `Char.toLower`. -/
def clean_col (name : String) : String :=
  String.mk (name.data.map Char.toLower)

/-- An abstract country-to-continent lookup capability, standing for the
`pycountry_convert` calls; any of its failure modes (unknown country name,
ambiguous name, or an error of the lookup capability itself) is an
exception in the Python code. -/
inductive LookupFailure where
  | unknownCountry : LookupFailure
  | ambiguousName : LookupFailure
  | capabilityError : LookupFailure
deriving DecidableEq, Repr

/-- `country_to_continent` (lines 14-24): chase the lookup and swallow any
exception into `None`.  A non-string cell likewise raises inside
`pycountry_convert` and comes back as `None`. -/
def country_to_continent (lookup : String → Except LookupFailure String) : Value → Option String
  | .vStr s =>
    match lookup s with
    | .ok c => some c
    | .error _ => none
  | _ => none

/-- The continent cell appended by the enrichment: a string on success,
null (`None`) on any lookup failure. -/
def continentCell (lookup : String → Except LookupFailure String) (v : Value) : Value :=
  match country_to_continent lookup v with
  | some c => .vStr c
  | none => .vNull

/-- One cell of `pd.to_numeric`: strings must parse as decimal literals,
numeric and null cells pass through unchanged. -/
def cellToNumeric : Value → Option Value
  | .vStr s => (parseNum s).map .vNum
  | .vNum q => some (.vNum q)
  | .vInt n => some (.vInt n)
  | .vNull => some .vNull

/-- A column has pandas dtype `object` iff it still holds string cells. -/
def isObjectCol (cells : List Value) : Bool :=
  cells.any Value.isStr

/-- Does every cell of the column coerce? -/
def colParses (cells : List Value) : Bool :=
  cells.all (fun v => (cellToNumeric v).isSome)

/-- `pd.to_numeric(col, errors='ignore')` (line 44): if any cell fails to
parse, the whole column is returned unchanged; otherwise every cell is
coerced. -/
def toNumericIgnore (cells : List Value) : List Value :=
  if colParses cells then cells.map (fun v => (cellToNumeric v).getD v) else cells

/-- One iteration of the loop at lines 42-44: column `j` is coerced when
its label is not `country`/`gender` and its dtype is `object`. -/
def coerceStep (header : List String) (rows : List (List Value)) (j : ℕ) : List (List Value) :=
  if header.getD j "" = "country" ∨ header.getD j "" = "gender" then rows
  else if isObjectCol (getCol j rows) then setCol j (toNumericIgnore (getCol j rows)) rows
  else rows

/-- The loop at lines 42-44 over all columns. -/
def coerceOtherCols (header : List String) (rows : List (List Value)) : List (List Value) :=
  (List.range header.length).foldl (coerceStep header) rows

/-- One cell of `pd.to_numeric(df['year'], errors='coerce').astype('Int64')`
(line 39): a string that fails to parse becomes null (`errors='coerce'`),
an integral number becomes an `Int64` integer, and a non-integral number
makes `astype('Int64')` raise (pandas refuses the unsafe cast). -/
def yearCoerce : Value → Except PipeError Value
  | .vStr s =>
    match parseNum s with
    | none => .ok .vNull
    | some q => if q.den = 1 then .ok (.vInt q.num) else .error .castError
  | .vNum q => if q.den = 1 then .ok (.vInt q.num) else .error .castError
  | .vInt n => .ok (.vInt n)
  | .vNull => .ok .vNull

/-- The `year` coercion applied to every row, at column `i`. -/
def coerceYearRows (i : ℕ) (rows : List (List Value)) : Except PipeError (List (List Value)) :=
  mapME
    (fun r =>
      match yearCoerce (r.getD i .vNull) with
      | .ok v => .ok (r.set i v)
      | .error e => .error e)
    rows

/-- Lines 38-39 guarded by `if 'year' in df.columns`. -/
def yearStep (header : List String) (rows : List (List Value)) :
    Except PipeError (List (List Value)) :=
  match header.indexOf? "year" with
  | none => .ok rows
  | some i => coerceYearRows i rows

/-- The Normalizer, lines 26-44: lowercase the labels, drop duplicate rows,
make `country`/`gender` categorical (their values are unchanged), coerce
`year` to nullable integers, and attempt numeric coercion of every other
`object` column. -/
def normalizeTable (t : Table) : Except PipeError Table :=
  let header := t.header.map clean_col
  let rows0 := dedupFirst t.rows
  match yearStep header rows0 with
  | .error e => .error e
  | .ok rows1 => .ok ⟨header, coerceOtherCols header rows1⟩

/-- The Filter, line 46: `df[df["gender"] == "Both sexes"]`.  A missing
`gender` column is a `KeyError`; the elementwise `==` is false on null
and on every string other than the exact sentinel `"Both sexes"`. -/
def filterBoth (t : Table) : Except PipeError Table :=
  match t.header.indexOf? "gender" with
  | none => .error (.keyError "gender")
  | some i =>
    .ok ⟨t.header, t.rows.filter (fun r => decide (r.getD i .vNull = .vStr "Both sexes"))⟩

/-- The Geo-Enricher, line 47: append a `continent` column computed by
`country_to_continent` from the `country` cell of each row. -/
def addContinent (lookup : String → Except LookupFailure String) (t : Table) :
    Except PipeError Table :=
  match t.header.indexOf? "country" with
  | none => .error (.keyError "country")
  | some i =>
    .ok ⟨t.header ++ ["continent"],
      t.rows.map (fun r => r ++ [continentCell lookup (r.getD i .vNull)])⟩

/-- Lines 46-47: the filter is applied to the normalized table and the
enrichment to the filter's output. -/
def df_both (lookup : String → Except LookupFailure String) (t : Table) :
    Except PipeError Table :=
  match normalizeTable t with
  | .error e => .error e
  | .ok tn =>
    match filterBoth tn with
    | .error e => .error e
    | .ok tf => addContinent lookup tf

/-- `DataFrame.dropna(subset=...)`: keep the rows that are non-null in
every subset column; a missing subset column is a `KeyError`. -/
def dropna (subset : List String) (t : Table) : Except PipeError Table :=
  match mapMo (fun c => t.header.indexOf? c) subset with
  | none => .error (.keyError "subset")
  | some idxs =>
    .ok ⟨t.header, t.rows.filter (fun r => idxs.all (fun i => !decide (r.getD i .vNull = .vNull)))⟩

/-- The columns the scatter chart drops nulls on (line 54). -/
def scatterSubset : List String :=
  ["diet composition fruit and vegetables", "life expectancy"]

/-- The columns the bubble chart drops nulls on (line 100). -/
def bubbleSubset : List String :=
  ["gdp per capita", "life expectancy", "total population", "continent", "year"]

/-- Line 54: `df_scatter`, the input data of the scatter chart. -/
def df_scatter (t : Table) : Except PipeError Table :=
  dropna scatterSubset t

/-- Line 100: `df_gapminder`, the input data of the bubble chart. -/
def df_gapminder (t : Table) : Except PipeError Table :=
  dropna bubbleSubset t

/-- Line 103: `years = sorted(df_gapminder['year'].unique())`.  The year
cells are `Int64` values; anything else would make the Python `sorted`
comparison fail. -/
def sortedYears (t : Table) : Except PipeError (List ℤ) :=
  match t.header.indexOf? "year" with
  | none => .error (.keyError "year")
  | some i =>
    match mapMo (fun v => match v with | .vInt n => some n | _ => none) (getCol i t.rows) with
    | none => .error .typeError
    | some ys => .ok (sortInts (dedupFirst ys))

/-- The bubble chart specification: its data and the year slider binding
built at lines 146-157 (`binding_range(min=years[0], max=years[-1],
step=1)` with `value=years[0]` on the selection). -/
structure BubbleChart where
  data : Table
  sliderMin : ℤ
  sliderMax : ℤ
  sliderStep : ℤ
  sliderDefault : ℤ
deriving DecidableEq, Repr

/-- The bubble chart builder, lines 100-157: drop nulls, compute the sorted
distinct years, and index `years[0]` / `years[-1]`; on an empty year list
that indexing raises `IndexError` (at the `print` on line 104) before any
chart is built or saved. -/
def buildBubble (t : Table) : Except PipeError BubbleChart :=
  match df_gapminder t with
  | .error e => .error e
  | .ok d =>
    match sortedYears d with
    | .error e => .error e
    | .ok [] => .error .indexError
    | .ok (y0 :: ys) => .ok ⟨d, y0, (y0 :: ys).getLastD 0, 1, y0⟩

/-- The set of values offered by `alt.binding_range(min, max, step=1)`:
every integer from `min` to `max` inclusive. -/
def sliderValues (c : BubbleChart) : List ℤ :=
  (List.range (c.sliderMax - c.sliderMin + 1).toNat).map (fun k : ℕ => c.sliderMin + (k : ℤ))

/-- The integer years actually present in a chart's data. -/
def dataYears (c : BubbleChart) : List ℤ :=
  match c.data.header.indexOf? "year" with
  | none => []
  | some i =>
    (getCol i c.data.rows).filterMap (fun v => match v with | .vInt n => some n | _ => none)

/-- The rows rendered for a selected year: `transform_filter` applied to a
`selection_point` on the `year` field keeps exactly the rows whose year
equals the selected value. -/
def yearFilteredRows (c : BubbleChart) (y : ℤ) : List (List Value) :=
  match c.data.header.indexOf? "year" with
  | none => []
  | some i => c.data.rows.filter (fun r => decide (r.getD i .vNull = .vInt y))

/-- Unwrap a pipeline result, with the empty table as the error value. -/
def okTable (e : Except PipeError Table) : Table :=
  match e with
  | .ok t => t
  | .error _ => ⟨[], []⟩

/-- The rows of a pipeline result. -/
def rowsOf (e : Except PipeError Table) : List (List Value) :=
  (okTable e).rows

/-- Column `j` is a fixed point of the column-level coercion. -/
def toNumFix (j : ℕ) (rows : List (List Value)) : Prop :=
  toNumericIgnore (getCol j rows) = getCol j rows

/-- The loop skips column `j` by name. -/
def nameSkip (header : List String) (j : ℕ) : Prop :=
  header.getD j "" = "country" ∨ header.getD j "" = "gender"

/-- Total companion of `yearCoerce`: the value the year cell gets whenever
the coercion does not raise. -/
def yearForce (v : Value) : Value :=
  match yearCoerce v with
  | .ok w => w
  | .error _ => .vNull

/-- The year column after coercion holds integers and nulls only. -/
def isIntOrNull (v : Value) : Prop :=
  v = .vNull ∨ ∃ n : ℤ, v = .vInt n

/-- Lines 54 and 100 share the pipeline prefix of lines 26-47: the scatter
data computed from the raw table. -/
def pipeline_scatter (lookup : String → Except LookupFailure String) (t : Table) :
    Except PipeError Table :=
  match df_both lookup t with
  | .error e => .error e
  | .ok te => df_scatter te

/-- The bubble data computed from the raw table. -/
def pipeline_gapminder (lookup : String → Except LookupFailure String) (t : Table) :
    Except PipeError Table :=
  match df_both lookup t with
  | .error e => .error e
  | .ok te => df_gapminder te

/-- Unwrap a bubble-chart result, with a degenerate chart as error value. -/
def okBubble (e : Except PipeError BubbleChart) : BubbleChart :=
  match e with
  | .ok c => c
  | .error _ => ⟨⟨[], []⟩, 0, 0, 0, 0⟩

/-! ### Concrete inputs used to instantiate and to refute the claims -/

/-- A concrete lookup capability: knows France, fails on everything else. -/
def ExLookup : String → Except LookupFailure String :=
  fun s => if s = "France" then .ok "Europe" else .error .unknownCountry

/-- A lookup capability that always fails with a capability error. -/
def ExLookupFail : String → Except LookupFailure String :=
  fun _ => .error .capabilityError

/-- Two rows whose gender values differ only in case. -/
def T1 : Table :=
  ⟨["gender"], [[.vStr "both sexes"], [.vStr "Both sexes"]]⟩

/-- A raw table whose single row carries an unmapped country together with
non-null diet-composition and life-expectancy values. -/
def T2 : Table :=
  ⟨["Country", "Gender", "Year", "GDP per Capita", "Life Expectancy",
    "Total Population", "Diet Composition Fruit and Vegetables"],
   [[.vStr "Neverland", .vStr "Both sexes", .vStr "2011", .vStr "100",
     .vStr "70.5", .vStr "1000", .vStr "40.5"]]⟩

/-- An enriched-shaped table with one unmapped-country row, for witnesses. -/
def T2W : Table :=
  ⟨["country", "gender", "year", "gdp per capita", "life expectancy",
    "total population", "diet composition fruit and vegetables", "continent"],
   [[.vStr "France", .vStr "Both sexes", .vInt 2010, .vNum 35000, .vNum 81,
     .vNum 65000000, .vNum 50, .vStr "Europe"],
    [.vStr "Neverland", .vStr "Both sexes", .vInt 2011, .vNum 100, .vNum 70,
     .vNum 1000, .vNum 40, .vNull]]⟩

/-- A table whose `score` column is only partially numeric. -/
def T3 : Table :=
  ⟨["country", "gender", "score"],
   [[.vStr "France", .vStr "Both sexes", .vStr "1"],
    [.vStr "Spain", .vStr "Both sexes", .vStr "abc"]]⟩

/-- A two-row table with one aggregate row and one `Male` row. -/
def T4 : Table :=
  ⟨["country", "gender"],
   [[.vStr "France", .vStr "Both sexes"], [.vStr "France", .vStr "Male"]]⟩

/-- A one-column table of countries, for the enrichment witness. -/
def T5 : Table :=
  ⟨["country"], [[.vStr "Atlantis"]]⟩

/-- An enriched-shaped table whose years are 1990 and 2000, with a gap. -/
def T6 : Table :=
  ⟨["country", "gender", "year", "gdp per capita", "life expectancy",
    "total population", "continent"],
   [[.vStr "France", .vStr "Both sexes", .vInt 1990, .vNum 35000, .vNum 81,
     .vNum 65000000, .vStr "Europe"],
    [.vStr "France", .vStr "Both sexes", .vInt 2000, .vNum 36000, .vNum 82,
     .vNum 65000000, .vStr "Europe"]]⟩

/-- Two rows equal in everything except the textual form of the year
(`"2010"` vs `"2010.0"`): distinct before coercion, equal after it. -/
def T7 : Table :=
  ⟨["country", "gender", "year"],
   [[.vStr "France", .vStr "Both sexes", .vStr "2010"],
    [.vStr "France", .vStr "Both sexes", .vStr "2010.0"]]⟩

/-- A table whose year value parses as the non-integral number 2010.5. -/
def T9 : Table :=
  ⟨["year"], [[.vStr "2010.5"]]⟩

/-- An enriched-shaped table whose only row is dropped by the bubble
chart's null-filtering (its continent is null). -/
def T10 : Table :=
  ⟨["gdp per capita", "life expectancy", "total population", "continent",
    "year", "country", "gender"],
   [[.vNum 100, .vNum 70, .vNum 1000, .vNull, .vInt 1990,
     .vStr "Neverland", .vStr "Both sexes"]]⟩

/-- Decidable equality of pipeline results, so that concrete runs can be
checked by `decide`. -/
instance {ε α : Type} [DecidableEq ε] [DecidableEq α] : DecidableEq (Except ε α) := fun a b =>
  match a, b with
  | .ok x, .ok y =>
    if h : x = y then isTrue (by rw [h]) else isFalse (fun hc => h (by injection hc))
  | .error e, .error f =>
    if h : e = f then isTrue (by rw [h]) else isFalse (fun hc => h (by injection hc))
  | .ok _, .error _ => isFalse (fun hc => Except.noConfusion hc)
  | .error _, .ok _ => isFalse (fun hc => Except.noConfusion hc)

theorem ratNormalize_eq_mkRat (n : ℤ) (d : ℕ) : ratNormalize n d = mkRat n d := by
  unfold ratNormalize
  by_cases hd : d = 0
  · subst hd
    have hcond : ¬(0 / Nat.gcd n.natAbs 0 ≠ 0 ∧
        Nat.gcd (n / (Nat.gcd n.natAbs 0 : ℤ)).natAbs (0 / Nat.gcd n.natAbs 0) = 1) := by
      intro hcond
      exact hcond.1 (Nat.zero_div _)
    rw [dif_neg hcond, mkRat, dif_pos rfl]
    rfl
  · rw [mkRat, dif_neg hd, Rat.normalize_eq]
    have c1 : d / Nat.gcd n.natAbs d ≠ 0 := Rat.normalize.den_nz hd rfl
    have c2 : Nat.gcd (n / (Nat.gcd n.natAbs d : ℤ)).natAbs (d / Nat.gcd n.natAbs d) = 1 :=
      Rat.normalize.reduced' hd rfl
    rw [dif_pos ⟨c1, c2⟩]

theorem ratNormalize_eq_div (n : ℤ) (d : ℕ) : ratNormalize n d = (n : ℚ) / (d : ℚ) := by
  rw [ratNormalize_eq_mkRat, Rat.mkRat_eq_divInt, Rat.divInt_eq_div]
  norm_cast

/-! ### Lemmas about the list helpers -/

theorem dedupFirstFuel_congr {α : Type} [DecidableEq α] :
    ∀ (f1 : ℕ) (l : List α) (f2 : ℕ), l.length ≤ f1 → l.length ≤ f2 →
      dedupFirstFuel f1 l = dedupFirstFuel f2 l := by
  intro f1
  induction f1 with
  | zero =>
    intro l f2 h1 _
    have : l = [] := List.eq_nil_of_length_eq_zero (by omega)
    subst this
    cases f2 <;> rfl
  | succ g1 ih =>
    intro l f2 h1 h2
    cases l with
    | nil => cases f2 <;> rfl
    | cons a l' =>
      cases f2 with
      | zero => simp at h2
      | succ g2 =>
        simp only [dedupFirstFuel, List.cons.injEq, true_and]
        have hlen : (l'.filter (fun b => decide (b ≠ a))).length ≤ l'.length :=
          List.length_filter_le _ _
        simp only [List.length_cons] at h1 h2
        exact ih _ g2 (by omega) (by omega)

theorem dedupFirst_nil {α : Type} [DecidableEq α] : dedupFirst ([] : List α) = [] := rfl

theorem dedupFirst_cons {α : Type} [DecidableEq α] (a : α) (l : List α) :
    dedupFirst (a :: l) = a :: dedupFirst (l.filter (fun b => decide (b ≠ a))) := by
  unfold dedupFirst
  simp only [List.length_cons, dedupFirstFuel, List.cons.injEq, true_and]
  exact dedupFirstFuel_congr l.length _ _ (List.length_filter_le _ _) le_rfl

/-- Induction along the recursion pattern of `dedupFirst`. -/
theorem dedupFirst_induction {α : Type} [DecidableEq α] (P : List α → Prop)
    (h0 : P ([] : List α))
    (h1 : ∀ (a : α) (l : List α), P (l.filter (fun b => decide (b ≠ a))) → P (a :: l)) :
    ∀ l : List α, P l := by
  have key : ∀ (n : ℕ) (l : List α), l.length ≤ n → P l := by
    intro n
    induction n with
    | zero =>
      intro l hl
      have : l = [] := List.eq_nil_of_length_eq_zero (by omega)
      rw [this]
      exact h0
    | succ n ih =>
      intro l hl
      cases l with
      | nil => exact h0
      | cons a l' =>
        refine h1 a l' (ih _ ?_)
        have := List.length_filter_le (fun b => decide (b ≠ a)) l'
        simp only [List.length_cons] at hl
        omega
  exact fun l => key l.length l le_rfl

theorem mem_dedupFirst {α : Type} [DecidableEq α] (l : List α) (a : α) :
    a ∈ dedupFirst l ↔ a ∈ l := by
  induction l using dedupFirst_induction with
  | h0 => simp [dedupFirst_nil]
  | h1 b l ih =>
    simp only [dedupFirst_cons, List.mem_cons, ih, List.mem_filter, decide_eq_true_eq]
    by_cases hab : a = b
    · simp [hab]
    · simp [hab]

theorem nodup_dedupFirst {α : Type} [DecidableEq α] (l : List α) :
    (dedupFirst l).Nodup := by
  induction l using dedupFirst_induction with
  | h0 => simp [dedupFirst_nil]
  | h1 b l ih =>
    rw [dedupFirst_cons]
    refine List.nodup_cons.mpr ⟨?_, ih⟩
    intro hmem
    have hf := (mem_dedupFirst _ _).mp hmem
    have := (List.mem_filter.mp hf).2
    simp at this

theorem sublist_dedupFirst {α : Type} [DecidableEq α] (l : List α) :
    (dedupFirst l).Sublist l := by
  induction l using dedupFirst_induction with
  | h0 => simp [dedupFirst_nil]
  | h1 b l ih =>
    rw [dedupFirst_cons]
    exact List.Sublist.cons₂ b (ih.trans (List.filter_sublist l))

theorem dedupFirst_eq_self_of_nodup {α : Type} [DecidableEq α] (l : List α)
    (h : l.Nodup) : dedupFirst l = l := by
  induction l using dedupFirst_induction with
  | h0 => simp [dedupFirst_nil]
  | h1 b l ih =>
    rw [dedupFirst_cons]
    have hb : b ∉ l := (List.nodup_cons.mp h).1
    have hl : l.Nodup := (List.nodup_cons.mp h).2
    have hfilter : l.filter (fun x => decide (x ≠ b)) = l := by
      apply List.filter_eq_self.mpr
      intro x hx
      simp only [decide_eq_true_eq]
      intro hxb
      exact hb (hxb ▸ hx)
    have ih' := ih (by rw [hfilter]; exact hl)
    rw [hfilter] at ih'
    rw [hfilter, ih']

theorem firstIdx_lt_of_filter_lt {α : Type} [DecidableEq α] (a x y : α) :
    ∀ l : List α, x ≠ a → y ≠ a →
      firstIdx x (l.filter (fun b => decide (b ≠ a))) <
        firstIdx y (l.filter (fun b => decide (b ≠ a))) →
      firstIdx x l < firstIdx y l := by
  intro l
  induction l with
  | nil => intro _ _ h; exact h
  | cons c l ih =>
    intro hx hy h
    by_cases hca : c = a
    · have hcx : ¬ c = x := by intro h'; exact hx (h' ▸ hca)
      have hcy : ¬ c = y := by intro h'; exact hy (h' ▸ hca)
      rw [List.filter_cons, if_neg (by simp [hca])] at h
      simp only [firstIdx]
      rw [if_neg hcx, if_neg hcy]
      exact Nat.succ_lt_succ (ih hx hy h)
    · rw [List.filter_cons, if_pos (by simp [hca])] at h
      by_cases hcx : c = x
      · simp only [firstIdx] at h ⊢
        rw [if_pos hcx] at h ⊢
        by_cases hcy : c = y
        · rw [if_pos hcy] at h
          exact absurd h (by omega)
        · rw [if_neg hcy]
          omega
      · simp only [firstIdx] at h ⊢
        rw [if_neg hcx] at h ⊢
        by_cases hcy : c = y
        · rw [if_pos hcy] at h
          exact absurd h (by omega)
        · rw [if_neg hcy] at h ⊢
          exact Nat.succ_lt_succ (ih hx hy (by omega))

theorem pairwise_firstIdx_dedupFirst {α : Type} [DecidableEq α] (l : List α) :
    (dedupFirst l).Pairwise (fun x y => firstIdx x l < firstIdx y l) := by
  induction l using dedupFirst_induction with
  | h0 => simp [dedupFirst_nil]
  | h1 b l ih =>
    rw [dedupFirst_cons]
    refine List.Pairwise.cons ?_ ?_
    · intro y hy
      have hyf := (mem_dedupFirst _ _).mp hy
      have hyne : y ≠ b := by
        have := (List.mem_filter.mp hyf).2; simpa using this
      have hby : ¬ b = y := fun h => hyne h.symm
      simp only [firstIdx, eq_self_iff_true, if_true]
      rw [if_neg hby]
      omega
    · refine ih.imp_of_mem ?_
      intro x y hx hy h
      have hxf := (mem_dedupFirst _ _).mp hx
      have hyf := (mem_dedupFirst _ _).mp hy
      have hxne : x ≠ b := by have := (List.mem_filter.mp hxf).2; simpa using this
      have hyne : y ≠ b := by have := (List.mem_filter.mp hyf).2; simpa using this
      have hbx : ¬ b = x := fun h' => hxne h'.symm
      have hby : ¬ b = y := fun h' => hyne h'.symm
      simp only [firstIdx]
      rw [if_neg hbx, if_neg hby]
      exact Nat.succ_lt_succ (firstIdx_lt_of_filter_lt b x y l hxne hyne h)

theorem set_of_length_le {α : Type} : ∀ (r : List α) (i : ℕ) (v : α),
    r.length ≤ i → r.set i v = r := by
  intro r
  induction r with
  | nil => intro i v _; rfl
  | cons a r ih =>
    intro i v h
    cases i with
    | zero => simp at h
    | succ j =>
      simp only [List.set_cons_succ, List.cons.injEq, true_and]
      exact ih j v (by simpa using h)

theorem getD_of_length_le {α : Type} : ∀ (r : List α) (i : ℕ) (d : α),
    r.length ≤ i → r.getD i d = d := by
  intro r
  induction r with
  | nil => intro i d _; rfl
  | cons a r ih =>
    intro i d h
    cases i with
    | zero => simp at h
    | succ j => exact ih j d (by simpa using h)

theorem getD_set_eq {α : Type} : ∀ (r : List α) (i : ℕ) (v d : α),
    i < r.length → (r.set i v).getD i d = v := by
  intro r
  induction r with
  | nil => intro i v d h; simp at h
  | cons a r ih =>
    intro i v d h
    cases i with
    | zero => rfl
    | succ j => exact ih j v d (by simpa using h)

theorem getD_set_ne {α : Type} : ∀ (r : List α) (i j : ℕ) (v d : α),
    i ≠ j → (r.set j v).getD i d = r.getD i d := by
  intro r
  induction r with
  | nil => intro i j v d _; rfl
  | cons a r ih =>
    intro i j v d hij
    cases j with
    | zero =>
      cases i with
      | zero => exact absurd rfl hij
      | succ i' => rfl
    | succ j' =>
      cases i with
      | zero => rfl
      | succ i' => exact ih i' j' v d (by omega)

theorem set_getD_self {α : Type} : ∀ (r : List α) (i : ℕ) (d : α),
    r.set i (r.getD i d) = r := by
  intro r
  induction r with
  | nil => intro i d; rfl
  | cons a r ih =>
    intro i d
    cases i with
    | zero => rfl
    | succ j => simp only [List.getD_cons_succ, List.set_cons_succ, ih j d]

theorem getD_set_cases {α : Type} (r : List α) (i : ℕ) (v d : α) :
    (r.set i v).getD i d = v ∨ (r.set i v).getD i d = d := by
  by_cases h : i < r.length
  · exact Or.inl (getD_set_eq r i v d h)
  · right
    rw [set_of_length_le r i v (by omega)]
    exact getD_of_length_le r i d (by omega)

theorem getD_append_left {α : Type} : ∀ (l l' : List α) (i : ℕ) (d : α),
    i < l.length → (l ++ l').getD i d = l.getD i d := by
  intro l
  induction l with
  | nil => intro l' i d h; simp at h
  | cons a l ih =>
    intro l' i d h
    cases i with
    | zero => rfl
    | succ j => exact ih l' j d (by simpa using h)

/-! ### Lemmas about the column operations -/

theorem getCol_length (j : ℕ) (rows : List (List Value)) :
    (getCol j rows).length = rows.length :=
  List.length_map _ _

theorem toNumericIgnore_length (cells : List Value) :
    (toNumericIgnore cells).length = cells.length := by
  unfold toNumericIgnore
  by_cases h : colParses cells = true
  · rw [if_pos h]; exact List.length_map _ _
  · rw [if_neg h]

theorem getCol_setCol_ne (i j : ℕ) (hij : i ≠ j) :
    ∀ (rows : List (List Value)) (vals : List Value),
      vals.length = rows.length → getCol i (setCol j vals rows) = getCol i rows := by
  intro rows
  induction rows with
  | nil => intro vals _; rfl
  | cons r rs ih =>
    intro vals hlen
    cases vals with
    | nil => simp at hlen
    | cons v vs =>
      simp only [setCol, List.zipWith_cons_cons, getCol, List.map_cons]
      rw [getD_set_ne r i j v .vNull hij]
      have := ih vs (by simpa using hlen)
      simpa only [getCol, setCol] using congrArg (List.cons (r.getD i .vNull)) this

theorem setCol_getCol_self (j : ℕ) :
    ∀ rows : List (List Value), setCol j (getCol j rows) rows = rows := by
  intro rows
  induction rows with
  | nil => rfl
  | cons r rs ih =>
    simp only [setCol, getCol, List.map_cons, List.zipWith_cons_cons]
    rw [set_getD_self r j .vNull]
    simpa only [setCol, getCol] using congrArg (List.cons r) ih

/-! ### Lemmas about the column-level numeric coercion -/

theorem cellToNumeric_not_isStr (v w : Value) (h : cellToNumeric v = some w) :
    w.isStr = false := by
  cases v with
  | vNull => simp [cellToNumeric] at h; simp [← h, Value.isStr]
  | vStr s =>
    have h' : (parseNum s).map Value.vNum = some w := h
    clear h
    rename' h' => h
    cases hp : parseNum s with
    | none => rw [hp] at h; simp at h
    | some q =>
      rw [hp] at h
      simp only [Option.map_some'] at h
      injection h with h'
      simp [← h', Value.isStr]
  | vNum q => simp [cellToNumeric] at h; simp [← h, Value.isStr]
  | vInt n => simp [cellToNumeric] at h; simp [← h, Value.isStr]

theorem cellToNumeric_of_not_isStr (v : Value) (h : v.isStr = false) :
    cellToNumeric v = some v := by
  cases v with
  | vNull => rfl
  | vStr s => simp [Value.isStr] at h
  | vNum q => rfl
  | vInt n => rfl

theorem toNumericIgnore_of_not_colParses (cells : List Value)
    (h : colParses cells = false) : toNumericIgnore cells = cells := by
  unfold toNumericIgnore
  rw [if_neg (by simp [h])]

theorem toNumericIgnore_of_noStr (cells : List Value)
    (h : ∀ v ∈ cells, v.isStr = false) : toNumericIgnore cells = cells := by
  have hp : colParses cells = true := by
    unfold colParses
    rw [List.all_eq_true]
    intro v hv
    rw [cellToNumeric_of_not_isStr v (h v hv)]
    rfl
  unfold toNumericIgnore
  rw [if_pos hp]
  have hid : cells.map (fun v => (cellToNumeric v).getD v) = cells.map id := by
    apply List.map_congr_left
    intro v hv
    rw [cellToNumeric_of_not_isStr v (h v hv)]
    rfl
  rw [hid, List.map_id]

theorem toNumericIgnore_noStr_of_colParses (cells : List Value)
    (h : colParses cells = true) : ∀ v ∈ toNumericIgnore cells, v.isStr = false := by
  intro v hv
  unfold toNumericIgnore at hv
  rw [if_pos h] at hv
  obtain ⟨w, hw, hval⟩ := List.mem_map.mp hv
  have hsome : (cellToNumeric w).isSome = true := by
    unfold colParses at h
    exact (List.all_eq_true.mp h) w hw
  obtain ⟨u, hu⟩ := Option.isSome_iff_exists.mp hsome
  rw [hu] at hval
  simp only [Option.getD_some] at hval
  exact hval ▸ cellToNumeric_not_isStr w u hu

theorem toNumericIgnore_idem (cells : List Value) :
    toNumericIgnore (toNumericIgnore cells) = toNumericIgnore cells := by
  by_cases h : colParses cells = true
  · exact toNumericIgnore_of_noStr _ (toNumericIgnore_noStr_of_colParses cells h)
  · have h' := toNumericIgnore_of_not_colParses cells (by simpa using h)
    rw [h', h']

/-! ### Lemmas about the coercion loop over the non-`country`/`gender` columns -/

theorem coerceStep_of_nameSkip (header : List String) (rows : List (List Value)) (j : ℕ)
    (h : nameSkip header j) : coerceStep header rows j = rows := by
  unfold coerceStep
  unfold nameSkip at h
  rw [if_pos h]

theorem toNumFix_of_noStr (j : ℕ) (rows : List (List Value))
    (h : ∀ v ∈ getCol j rows, v.isStr = false) : toNumFix j rows :=
  toNumericIgnore_of_noStr _ h

theorem coerceStep_of_toNumFix (header : List String) (rows : List (List Value)) (j : ℕ)
    (h : toNumFix j rows) : coerceStep header rows j = rows := by
  unfold coerceStep
  by_cases hs : nameSkip header j
  · unfold nameSkip at hs
    rw [if_pos hs]
  · unfold nameSkip at hs
    rw [if_neg hs]
    by_cases ho : isObjectCol (getCol j rows) = true
    · rw [if_pos ho, h, setCol_getCol_self]
    · rw [if_neg ho]

theorem getCol_coerceStep_ne (header : List String) (rows : List (List Value)) (i j : ℕ)
    (hij : i ≠ j) : getCol i (coerceStep header rows j) = getCol i rows := by
  unfold coerceStep
  by_cases hs : nameSkip header j
  · unfold nameSkip at hs
    rw [if_pos hs]
  · unfold nameSkip at hs
    rw [if_neg hs]
    by_cases ho : isObjectCol (getCol j rows) = true
    · rw [if_pos ho]
      exact getCol_setCol_ne i j hij rows _ (by rw [toNumericIgnore_length, getCol_length])
    · rw [if_neg ho]

theorem noStr_getCol_setCol_self (j : ℕ) (rows : List (List Value)) (vals : List Value)
    (h : ∀ v ∈ vals, v.isStr = false) :
    ∀ v ∈ getCol j (setCol j vals rows), v.isStr = false := by
  induction rows generalizing vals with
  | nil => intro v hv; simp [setCol, getCol] at hv
  | cons r rs ih =>
    intro v hv
    cases vals with
    | nil => simp [setCol, getCol] at hv
    | cons w ws =>
      simp only [setCol, List.zipWith_cons_cons, getCol, List.map_cons, List.mem_cons] at hv
      rcases hv with hv | hv
      · rcases getD_set_cases r j w .vNull with hc | hc
        · rw [hv, hc]; exact h w (by simp)
        · rw [hv, hc]; rfl
      · exact ih ws (fun u hu => h u (by simp [hu])) v (by simpa [setCol, getCol] using hv)

theorem toNumFix_coerceStep_self (header : List String) (rows : List (List Value)) (j : ℕ) :
    nameSkip header j ∨ toNumFix j (coerceStep header rows j) := by
  by_cases hs : nameSkip header j
  · exact Or.inl hs
  · right
    unfold coerceStep
    unfold nameSkip at hs
    rw [if_neg hs]
    by_cases ho : isObjectCol (getCol j rows) = true
    · rw [if_pos ho]
      by_cases hp : colParses (getCol j rows) = true
      · apply toNumFix_of_noStr
        apply noStr_getCol_setCol_self
        exact toNumericIgnore_noStr_of_colParses _ hp
      · have hfix := toNumericIgnore_of_not_colParses _ (by simpa using hp)
        rw [hfix, setCol_getCol_self]
        unfold toNumFix
        rw [hfix]
    · rw [if_neg ho]
      apply toNumFix_of_noStr
      intro v hv
      unfold isObjectCol at ho
      rcases hb : v.isStr with _ | _
      · rfl
      · exact absurd (List.any_eq_true.mpr ⟨v, hv, hb⟩) ho

theorem toNumFix_coerceStep_preserved (header : List String) (rows : List (List Value))
    (i j : ℕ) (h : nameSkip header i ∨ toNumFix i rows) :
    nameSkip header i ∨ toNumFix i (coerceStep header rows j) := by
  rcases h with h | h
  · exact Or.inl h
  · by_cases hij : i = j
    · subst hij
      rw [coerceStep_of_toNumFix header rows i h]
      exact Or.inr h
    · right
      unfold toNumFix
      rw [getCol_coerceStep_ne header rows i j hij, h]

theorem foldl_coerceStep_toNumFix_preserved (header : List String) (idxs : List ℕ) :
    ∀ (rows : List (List Value)) (i : ℕ), (nameSkip header i ∨ toNumFix i rows) →
      nameSkip header i ∨ toNumFix i (idxs.foldl (coerceStep header) rows) := by
  induction idxs with
  | nil => intro rows i h; exact h
  | cons j rest ih =>
    intro rows i h
    exact ih (coerceStep header rows j) i (toNumFix_coerceStep_preserved header rows i j h)

theorem foldl_coerceStep_toNumFix_mem (header : List String) (idxs : List ℕ) :
    ∀ (rows : List (List Value)) (i : ℕ), i ∈ idxs →
      nameSkip header i ∨ toNumFix i (idxs.foldl (coerceStep header) rows) := by
  induction idxs with
  | nil => intro rows i h; simp at h
  | cons j rest ih =>
    intro rows i hmem
    rcases List.mem_cons.mp hmem with hij | hrest
    · subst hij
      exact foldl_coerceStep_toNumFix_preserved header rest (coerceStep header rows i) i
        (toNumFix_coerceStep_self header rows i)
    · exact ih (coerceStep header rows j) i hrest

theorem foldl_coerceStep_id (header : List String) (idxs : List ℕ) :
    ∀ rows : List (List Value), (∀ j ∈ idxs, nameSkip header j ∨ toNumFix j rows) →
      idxs.foldl (coerceStep header) rows = rows := by
  induction idxs with
  | nil => intro rows _; rfl
  | cons j rest ih =>
    intro rows h
    have hstep : coerceStep header rows j = rows := by
      rcases h j (by simp) with hs | hf
      · exact coerceStep_of_nameSkip header rows j hs
      · exact coerceStep_of_toNumFix header rows j hf
    rw [List.foldl_cons, hstep]
    exact ih rows (fun k hk => h k (by simp [hk]))

theorem coerceOtherCols_fix (header : List String) (rows : List (List Value)) :
    ∀ j ∈ List.range header.length,
      nameSkip header j ∨ toNumFix j (coerceOtherCols header rows) := by
  intro j hj
  exact foldl_coerceStep_toNumFix_mem header (List.range header.length) rows j hj

theorem coerceOtherCols_idem (header : List String) (rows : List (List Value)) :
    coerceOtherCols header (coerceOtherCols header rows) = coerceOtherCols header rows := by
  unfold coerceOtherCols
  exact foldl_coerceStep_id header (List.range header.length) _
    (fun j hj => coerceOtherCols_fix header rows j hj)

theorem foldl_coerceStep_noStr_col (header : List String) (idxs : List ℕ) :
    ∀ (rows : List (List Value)) (i : ℕ), (∀ v ∈ getCol i rows, v.isStr = false) →
      getCol i (idxs.foldl (coerceStep header) rows) = getCol i rows := by
  induction idxs with
  | nil => intro rows i _; rfl
  | cons j rest ih =>
    intro rows i h
    by_cases hij : i = j
    · subst hij
      have hfix : coerceStep header rows i = rows :=
        coerceStep_of_toNumFix header rows i (toNumFix_of_noStr i rows h)
      rw [List.foldl_cons, hfix]
      exact ih rows i h
    · have hcol : getCol i (coerceStep header rows j) = getCol i rows :=
        getCol_coerceStep_ne header rows i j hij
      rw [List.foldl_cons, ih (coerceStep header rows j) i (by rw [hcol]; exact h), hcol]

/-- Every column of the output of the coercion loop either holds no string
cells at all (it was coerced, or had none to begin with) or is exactly the
corresponding input column, unchanged. -/
theorem coerceOtherCols_colOk (header : List String) (idxs : List ℕ) :
    ∀ (rows : List (List Value)) (j : ℕ),
      (∀ v ∈ getCol j (idxs.foldl (coerceStep header) rows), v.isStr = false) ∨
        getCol j (idxs.foldl (coerceStep header) rows) = getCol j rows := by
  induction idxs with
  | nil => intro rows j; exact Or.inr rfl
  | cons j0 rest ih =>
    intro rows j
    rw [List.foldl_cons]
    rcases ih (coerceStep header rows j0) j with h | h
    · exact Or.inl h
    · rw [h]
      by_cases hjj : j = j0
      · subst hjj
        unfold coerceStep
        by_cases hs : header.getD j "" = "country" ∨ header.getD j "" = "gender"
        · rw [if_pos hs]; exact Or.inr rfl
        · rw [if_neg hs]
          by_cases ho : isObjectCol (getCol j rows) = true
          · rw [if_pos ho]
            by_cases hp : colParses (getCol j rows) = true
            · left
              apply noStr_getCol_setCol_self
              exact toNumericIgnore_noStr_of_colParses _ hp
            · rw [toNumericIgnore_of_not_colParses _ (by simpa using hp), setCol_getCol_self]
              exact Or.inr rfl
          · rw [if_neg ho]; exact Or.inr rfl
      · exact Or.inr (getCol_coerceStep_ne header rows j j0 hjj)

/-! ### Lemmas about the year coercion -/

theorem yearForce_isIntOrNull (v : Value) : isIntOrNull (yearForce v) := by
  cases v with
  | vNull => exact Or.inl rfl
  | vInt n => exact Or.inr ⟨n, rfl⟩
  | vNum q =>
    by_cases h : q.den = 1
    · right
      refine ⟨q.num, ?_⟩
      unfold yearForce
      simp [yearCoerce, h]
    · left
      unfold yearForce
      simp [yearCoerce, h]
  | vStr s =>
    cases hp : parseNum s with
    | none =>
      left
      unfold yearForce
      simp [yearCoerce, hp]
    | some q =>
      by_cases h : q.den = 1
      · right
        refine ⟨q.num, ?_⟩
        unfold yearForce
        simp [yearCoerce, hp, h]
      · left
        unfold yearForce
        simp [yearCoerce, hp, h]

theorem isIntOrNull_not_isStr (v : Value) (h : isIntOrNull v) : v.isStr = false := by
  rcases h with h | ⟨n, h⟩ <;> rw [h] <;> rfl

theorem yearCoerce_of_isIntOrNull (v : Value) (h : isIntOrNull v) :
    yearCoerce v = .ok v := by
  rcases h with h | ⟨n, h⟩ <;> rw [h] <;> rfl

theorem yearForce_of_isIntOrNull (v : Value) (h : isIntOrNull v) : yearForce v = v := by
  unfold yearForce
  rw [yearCoerce_of_isIntOrNull v h]

theorem coerceYearRows_ok_eq (i : ℕ) :
    ∀ (rows rows' : List (List Value)), coerceYearRows i rows = .ok rows' →
      rows' = rows.map (fun r => r.set i (yearForce (r.getD i .vNull))) := by
  intro rows
  induction rows with
  | nil =>
    intro rows' h
    simp only [coerceYearRows, mapME] at h
    injection h with h'
    rw [← h']
    rfl
  | cons r rs ih =>
    intro rows' h
    simp only [coerceYearRows, mapME] at h
    cases hy : yearCoerce (r.getD i .vNull) with
    | error e => rw [hy] at h; simp at h
    | ok v =>
      rw [hy] at h
      simp only at h
      cases hrec : mapME (fun r =>
          match yearCoerce (r.getD i Value.vNull) with
          | .ok v => Except.ok (r.set i v)
          | .error e => Except.error e) rs with
      | error e => rw [hrec] at h; simp at h
      | ok bs =>
        rw [hrec] at h
        simp only at h
        injection h with h'
        rw [← h']
        have hbs : bs = rs.map (fun r => r.set i (yearForce (r.getD i .vNull))) :=
          ih bs hrec
        rw [hbs]
        simp only [List.map_cons, List.cons.injEq, and_true]
        unfold yearForce
        rw [hy]

theorem coerceYearRows_ok_of_isIntOrNull (i : ℕ) :
    ∀ rows : List (List Value), (∀ r ∈ rows, isIntOrNull (r.getD i .vNull)) →
      coerceYearRows i rows = .ok rows := by
  intro rows
  induction rows with
  | nil => intro _; rfl
  | cons r rs ih =>
    intro h
    simp only [coerceYearRows, mapME]
    rw [yearCoerce_of_isIntOrNull _ (h r (by simp))]
    simp only
    have hrec := ih (fun r' hr' => h r' (by simp [hr']))
    unfold coerceYearRows at hrec
    rw [hrec]
    simp only [set_getD_self]

theorem getCol_map_set_self (i : ℕ) (rows : List (List Value)) (f : Value → Value)
    (hf : f .vNull = .vNull) :
    getCol i (rows.map (fun r => r.set i (f (r.getD i .vNull)))) =
      (getCol i rows).map f := by
  unfold getCol
  rw [List.map_map, List.map_map]
  apply List.map_congr_left
  intro r _
  simp only [Function.comp_apply]
  rcases getD_set_cases r i (f (r.getD i .vNull)) .vNull with hc | hc
  · rw [hc]
  · rw [hc]
    by_cases hlen : i < r.length
    · rw [getD_set_eq r i _ _ hlen] at hc
      rw [hc]
    · rw [getD_of_length_le r i .vNull (by omega), hf]

theorem getCol_map_set_ne (i j : ℕ) (hij : j ≠ i) (rows : List (List Value))
    (f : Value → Value) :
    getCol j (rows.map (fun r => r.set i (f (r.getD i .vNull)))) = getCol j rows := by
  unfold getCol
  rw [List.map_map]
  apply List.map_congr_left
  intro r _
  simp only [Function.comp_apply]
  exact getD_set_ne r j i _ _ hij

/-! ### Lemmas about `mapMo` -/

theorem mapMo_some_filterMap {α β : Type} (f : α → Option β) :
    ∀ (l : List α) (l' : List β), mapMo f l = some l' → l.filterMap f = l' := by
  intro l
  induction l with
  | nil =>
    intro l' h
    simp only [mapMo, Option.some.injEq] at h
    rw [← h]
    rfl
  | cons a l ih =>
    intro l' h
    simp only [mapMo] at h
    cases hf : f a with
    | none => rw [hf] at h; simp at h
    | some b =>
      rw [hf] at h
      cases hrec : mapMo f l with
      | none => rw [hrec] at h; simp at h
      | some bs =>
        rw [hrec] at h
        simp only [Option.some.injEq] at h
        rw [List.filterMap_cons, hf]
        show b :: l.filterMap f = l'
        rw [ih bs hrec]
        exact h

theorem mapMo_none_of_mem {α β : Type} (f : α → Option β) :
    ∀ (l : List α) (a : α), a ∈ l → f a = none → mapMo f l = none := by
  intro l
  induction l with
  | nil => intro a ha _; simp at ha
  | cons b l ih =>
    intro a ha hf
    simp only [mapMo]
    rcases List.mem_cons.mp ha with hab | hmem
    · rw [← hab, hf]
    · rw [ih a hmem hf]
      cases f b <;> rfl

theorem mapMo_some_forall_isSome {α β : Type} (f : α → Option β)
    (l : List α) (l' : List β) (h : mapMo f l = some l') :
    ∀ a ∈ l, (f a).isSome = true := by
  intro a ha
  cases hf : f a with
  | none => rw [mapMo_none_of_mem f l a ha hf] at h; exact absurd h (by simp)
  | some b => rfl

/-! ### Lemmas about the insertion sort modelling Python `sorted` -/

theorem mem_insertSorted (x a : ℤ) : ∀ l : List ℤ, x ∈ insertSorted a l ↔ x = a ∨ x ∈ l := by
  intro l
  induction l with
  | nil => simp [insertSorted]
  | cons y l ih =>
    simp only [insertSorted]
    by_cases h : a ≤ y
    · rw [if_pos h]
      simp only [List.mem_cons]
    · rw [if_neg h]
      simp only [List.mem_cons, ih]
      tauto

theorem mem_sortInts (x : ℤ) : ∀ l : List ℤ, x ∈ sortInts l ↔ x ∈ l := by
  intro l
  induction l with
  | nil => simp [sortInts]
  | cons a l ih =>
    simp only [sortInts, List.foldr_cons]
    have : List.foldr insertSorted [] l = sortInts l := rfl
    rw [this, mem_insertSorted, ih, List.mem_cons]

theorem pairwise_insertSorted (a : ℤ) :
    ∀ l : List ℤ, l.Pairwise (fun p q => p ≤ q) →
      (insertSorted a l).Pairwise (fun p q => p ≤ q) := by
  intro l
  induction l with
  | nil => intro _; simp [insertSorted]
  | cons y l ih =>
    intro h
    have hy : ∀ z ∈ l, y ≤ z := fun z hz => List.rel_of_pairwise_cons h hz
    have hl : l.Pairwise (fun p q => p ≤ q) := List.Pairwise.of_cons h
    simp only [insertSorted]
    by_cases hay : a ≤ y
    · rw [if_pos hay]
      refine List.Pairwise.cons ?_ h
      intro z hz
      rcases List.mem_cons.mp hz with hzy | hzl
      · rw [hzy]; exact hay
      · exact le_trans hay (hy z hzl)
    · rw [if_neg hay]
      refine List.Pairwise.cons ?_ (ih hl)
      intro z hz
      rcases (mem_insertSorted z a l).mp hz with hza | hzl
      · rw [hza]; omega
      · exact hy z hzl

theorem sortInts_pairwise : ∀ l : List ℤ, (sortInts l).Pairwise (fun p q => p ≤ q) := by
  intro l
  induction l with
  | nil => simp [sortInts]
  | cons a l ih =>
    simp only [sortInts, List.foldr_cons]
    exact pairwise_insertSorted a (sortInts l) ih

theorem pairwise_head_le (a : ℤ) (l : List ℤ)
    (h : (a :: l).Pairwise (fun p q => p ≤ q)) :
    ∀ y ∈ a :: l, a ≤ y := by
  intro y hy
  rcases List.mem_cons.mp hy with hya | hyl
  · rw [hya]
  · exact List.rel_of_pairwise_cons h hyl

theorem pairwise_le_getLastD : ∀ (a : ℤ) (l : List ℤ),
    (a :: l).Pairwise (fun p q => p ≤ q) → ∀ y ∈ a :: l, y ≤ (a :: l).getLastD 0 := by
  intro a l
  induction l generalizing a with
  | nil =>
    intro _ y hy
    rcases List.mem_cons.mp hy with hya | hyl
    · rw [hya]; rfl
    · simp at hyl
  | cons b l ih =>
    intro h y hy
    have hlast : (a :: b :: l).getLastD 0 = (b :: l).getLastD 0 := by
      simp [List.getLastD_cons]
    rw [hlast]
    rcases List.mem_cons.mp hy with hya | hyl
    · have hab : a ≤ b := List.rel_of_pairwise_cons h (by simp)
      have hb := ih b (List.Pairwise.of_cons h) b (by simp)
      rw [hya]
      exact le_trans hab hb
    · exact ih b (List.Pairwise.of_cons h) y hyl

/-! ### Idempotence of the label lowercasing -/

theorem char_toNat_ofNat_of_isValidChar (n : ℕ) (h : n.isValidChar) :
    (Char.ofNat n).toNat = n := by
  rw [Char.ofNat, dif_pos h]
  rfl

theorem char_toLower_eq_of_not_upper (c : Char) (h : ¬(c.toNat ≥ 65 ∧ c.toNat ≤ 90)) :
    Char.toLower c = c := by
  show (if c.toNat ≥ 65 ∧ c.toNat ≤ 90 then Char.ofNat (c.toNat + 32) else c) = c
  rw [if_neg h]

theorem char_toLower_eq_of_upper (c : Char) (h : c.toNat ≥ 65 ∧ c.toNat ≤ 90) :
    Char.toLower c = Char.ofNat (c.toNat + 32) := by
  show (if c.toNat ≥ 65 ∧ c.toNat ≤ 90 then Char.ofNat (c.toNat + 32) else c) = _
  rw [if_pos h]

theorem char_toLower_idem (c : Char) : Char.toLower (Char.toLower c) = Char.toLower c := by
  by_cases h : c.toNat ≥ 65 ∧ c.toNat ≤ 90
  · rw [char_toLower_eq_of_upper c h]
    apply char_toLower_eq_of_not_upper
    have hv : (c.toNat + 32).isValidChar := Or.inl (by omega)
    rw [char_toNat_ofNat_of_isValidChar _ hv]
    omega
  · rw [char_toLower_eq_of_not_upper c h]
    exact char_toLower_eq_of_not_upper c h

theorem clean_col_idem (s : String) : clean_col (clean_col s) = clean_col s := by
  show String.mk ((s.data.map Char.toLower).map Char.toLower) =
    String.mk (s.data.map Char.toLower)
  rw [List.map_map]
  congr 1
  apply List.map_congr_left
  intro c _
  simp only [Function.comp_apply]
  exact char_toLower_idem c

theorem map_clean_col_idem (h : List String) :
    (h.map clean_col).map clean_col = h.map clean_col := by
  rw [List.map_map]
  apply List.map_congr_left
  intro s _
  simp only [Function.comp_apply]
  exact clean_col_idem s

/-! ### Inversion lemmas for the pipeline stages -/

theorem normalizeTable_ok_parts (t t' : Table) (h : normalizeTable t = .ok t') :
    t'.header = t.header.map clean_col ∧
      ∃ rows1, yearStep (t.header.map clean_col) (dedupFirst t.rows) = .ok rows1 ∧
        t'.rows = coerceOtherCols (t.header.map clean_col) rows1 := by
  have h2 : (match yearStep (t.header.map clean_col) (dedupFirst t.rows) with
      | Except.error e => (Except.error e : Except PipeError Table)
      | Except.ok rows1 =>
        Except.ok ⟨t.header.map clean_col, coerceOtherCols (t.header.map clean_col) rows1⟩) =
      Except.ok t' := h
  cases hy : yearStep (t.header.map clean_col) (dedupFirst t.rows) with
  | error e => rw [hy] at h2; exact absurd h2 (by simp)
  | ok rows1 =>
    rw [hy] at h2
    simp only [Except.ok.injEq] at h2
    rw [← h2]
    exact ⟨rfl, rows1, rfl, rfl⟩

theorem filterBoth_ok_parts (t t' : Table) (i : ℕ)
    (hi : t.header.indexOf? "gender" = some i) (h : filterBoth t = .ok t') :
    t'.header = t.header ∧
      t'.rows = t.rows.filter (fun r => decide (r.getD i .vNull = .vStr "Both sexes")) := by
  unfold filterBoth at h
  rw [hi] at h
  simp only [Except.ok.injEq] at h
  rw [← h]
  exact ⟨rfl, rfl⟩

theorem addContinent_ok_parts (lookup : String → Except LookupFailure String)
    (t t' : Table) (i : ℕ) (hi : t.header.indexOf? "country" = some i)
    (h : addContinent lookup t = .ok t') :
    t'.header = t.header ++ ["continent"] ∧
      t'.rows = t.rows.map (fun r => r ++ [continentCell lookup (r.getD i .vNull)]) := by
  unfold addContinent at h
  rw [hi] at h
  simp only [Except.ok.injEq] at h
  rw [← h]
  exact ⟨rfl, rfl⟩

theorem addContinent_ok_of_country (lookup : String → Except LookupFailure String)
    (t : Table) (i : ℕ) (hi : t.header.indexOf? "country" = some i) :
    addContinent lookup t =
      .ok ⟨t.header ++ ["continent"],
        t.rows.map (fun r => r ++ [continentCell lookup (r.getD i .vNull)])⟩ := by
  unfold addContinent
  rw [hi]

theorem dropna_ok_parts (subset : List String) (t t' : Table) (idxs : List ℕ)
    (hidx : mapMo (fun c => t.header.indexOf? c) subset = some idxs)
    (h : dropna subset t = .ok t') :
    t'.header = t.header ∧
      t'.rows = t.rows.filter (fun r => idxs.all (fun i => !decide (r.getD i .vNull = .vNull))) := by
  unfold dropna at h
  rw [hidx] at h
  simp only [Except.ok.injEq] at h
  rw [← h]
  exact ⟨rfl, rfl⟩

theorem dropna_ok_of_idxs (subset : List String) (t : Table) (idxs : List ℕ)
    (hidx : mapMo (fun c => t.header.indexOf? c) subset = some idxs) :
    dropna subset t =
      .ok ⟨t.header,
        t.rows.filter (fun r => idxs.all (fun i => !decide (r.getD i .vNull = .vNull)))⟩ := by
  unfold dropna
  rw [hidx]

theorem normalizeTable_eq (t : Table) (rows1 : List (List Value))
    (hy : yearStep (t.header.map clean_col) (dedupFirst t.rows) = .ok rows1) :
    normalizeTable t =
      .ok ⟨t.header.map clean_col, coerceOtherCols (t.header.map clean_col) rows1⟩ := by
  show (match yearStep (t.header.map clean_col) (dedupFirst t.rows) with
      | Except.error e => (Except.error e : Except PipeError Table)
      | Except.ok rows1 =>
        Except.ok ⟨t.header.map clean_col, coerceOtherCols (t.header.map clean_col) rows1⟩) = _
  rw [hy]

theorem yearStep_ok_of_indexOf_none (header : List String) (rows : List (List Value))
    (h : header.indexOf? "year" = none) : yearStep header rows = .ok rows := by
  unfold yearStep
  rw [h]

theorem yearStep_eq_of_indexOf_some (header : List String) (rows : List (List Value))
    (i : ℕ) (h : header.indexOf? "year" = some i) :
    yearStep header rows = coerceYearRows i rows := by
  unfold yearStep
  rw [h]

/-- The year column of a normalized table is the per-cell coercion of the
year column of the deduplicated input, and holds only integers and nulls. -/
theorem normalizeTable_year_col (t t' : Table) (i : ℕ) (h : normalizeTable t = .ok t')
    (hi : (t.header.map clean_col).indexOf? "year" = some i) :
    getCol i t'.rows = (getCol i (dedupFirst t.rows)).map yearForce ∧
      ∀ v ∈ getCol i t'.rows, isIntOrNull v := by
  obtain ⟨hhdr, rows1, hy, hrows⟩ := normalizeTable_ok_parts t t' h
  rw [yearStep_eq_of_indexOf_some _ _ i hi] at hy
  have hrows1 : rows1 = (dedupFirst t.rows).map
      (fun r => r.set i (yearForce (r.getD i .vNull))) :=
    coerceYearRows_ok_eq i (dedupFirst t.rows) rows1 hy
  have hcol1 : getCol i rows1 = (getCol i (dedupFirst t.rows)).map yearForce := by
    rw [hrows1]
    exact getCol_map_set_self i (dedupFirst t.rows) yearForce rfl
  have hnostr : ∀ v ∈ getCol i rows1, v.isStr = false := by
    intro v hv
    rw [hcol1] at hv
    obtain ⟨u, _, hu⟩ := List.mem_map.mp hv
    exact hu ▸ isIntOrNull_not_isStr _ (yearForce_isIntOrNull u)
  have hpres : getCol i t'.rows = getCol i rows1 := by
    rw [hrows]
    exact foldl_coerceStep_noStr_col (t.header.map clean_col) _ rows1 i hnostr
  constructor
  · rw [hpres, hcol1]
  · intro v hv
    rw [hpres, hcol1] at hv
    obtain ⟨u, _, hu⟩ := List.mem_map.mp hv
    exact hu ▸ yearForce_isIntOrNull u

/-- Rerunning the Normalizer on an output table whose rows are duplicate-free
reproduces that table exactly. -/
theorem normalizeTable_idem (t t' : Table) (h : normalizeTable t = .ok t')
    (hnd : t'.rows.Nodup) : normalizeTable t' = .ok t' := by
  obtain ⟨hhdr, rows1, hy, hrows⟩ := normalizeTable_ok_parts t t' h
  have hhdr2 : t'.header.map clean_col = t'.header := by
    rw [hhdr]; exact map_clean_col_idem t.header
  have hdd : dedupFirst t'.rows = t'.rows := dedupFirst_eq_self_of_nodup _ hnd
  have hy2 : yearStep t'.header t'.rows = .ok t'.rows := by
    cases hidx : t'.header.indexOf? "year" with
    | none => exact yearStep_ok_of_indexOf_none _ _ hidx
    | some i =>
      rw [yearStep_eq_of_indexOf_some _ _ i hidx]
      apply coerceYearRows_ok_of_isIntOrNull
      intro r hr
      have hcell : r.getD i .vNull ∈ getCol i t'.rows := List.mem_map_of_mem _ hr
      have hint := (normalizeTable_year_col t t' i h (by rw [← hhdr]; exact hidx)).2
      exact hint _ hcell
  have hoc : coerceOtherCols t'.header t'.rows = t'.rows := by
    rw [hrows, hhdr]
    exact coerceOtherCols_idem (t.header.map clean_col) rows1
  have hfinal := normalizeTable_eq t' t'.rows (by rw [hhdr2, hdd]; exact hy2)
  rw [hfinal, hhdr2, hoc]

/-! ### Claim C1 -/

/-- Claim C1, counterexample: the Filter of line 46 compares against the
sentinel `"Both sexes"`, not `"both sexes"`.  On a table holding one row of
each spelling, the row with gender `"both sexes"` is in the input but not
in the output, and the output is exactly the `"Both sexes"` row — so the
Filter does not return the subset of rows whose gender equals
`"both sexes"` under a case-sensitive comparison. -/
theorem c1_counterexample :
    rowsOf (filterBoth T1) = [[Value.vStr "Both sexes"]] ∧
      [Value.vStr "both sexes"] ∈ T1.rows ∧
      [Value.vStr "both sexes"] ∉ rowsOf (filterBoth T1) := by
  decide

/-- Claim C1, amended: given a table with a `gender` column, the Filter
returns exactly the subset of rows whose gender cell equals the string
`"Both sexes"` under an exact, case-sensitive comparison; rows with any
other gender value or a null gender are excluded. -/
theorem c1_filter_exact (t : Table) (i : ℕ)
    (hi : t.header.indexOf? "gender" = some i) :
    ∃ t', filterBoth t = .ok t' ∧ t'.header = t.header ∧
      ∀ r, r ∈ t'.rows ↔ r ∈ t.rows ∧ r.getD i .vNull = .vStr "Both sexes" := by
  unfold filterBoth
  rw [hi]
  refine ⟨_, rfl, rfl, ?_⟩
  intro r
  simp only [List.mem_filter, decide_eq_true_eq]

/-- Witness for `c1_filter_exact` at the concrete table `T1`. -/
theorem c1_witness :
    ∃ t', filterBoth T1 = .ok t' ∧ t'.header = T1.header ∧
      ∀ r, r ∈ t'.rows ↔ r ∈ T1.rows ∧ r.getD 0 .vNull = .vStr "Both sexes" :=
  c1_filter_exact T1 0 rfl

/-! ### Claim C2 -/

/-- Claim C2, counterexample: running the full pipeline on a table whose
only row has the unmapped country `"Neverland"`, non-null diet composition
and non-null life expectancy, the scatter chart's input data (line 54)
still contains that row — its continent cell (column 7) is null — because
the scatter `dropna` subset does not include `continent`.  The bubble
chart's input data (line 100) does exclude it.  So the claim that such a
row is excluded from both charts is false. -/
theorem c2_counterexample :
    (rowsOf (pipeline_scatter ExLookup T2)).length = 1 ∧
      getCol 7 (rowsOf (pipeline_scatter ExLookup T2)) = [Value.vNull] ∧
      rowsOf (pipeline_gapminder ExLookup T2) = [] := by
  decide

/-- Claim C2, amended: a row whose country is not resolved by the lookup is
enriched with a null continent, and every row of the bubble chart's input
has a non-null continent (so the unresolved row is excluded there); the
scatter chart's input, however, is filtered only on the diet-composition
and life-expectancy columns, so a null-continent row stays in it whenever
those two cells are non-null. -/
theorem c2_continent_null_exclusion (lookup : String → Except LookupFailure String)
    (t : Table) (i1 i2 j1 j3 ic j5 : ℕ)
    (h1 : t.header.indexOf? "diet composition fruit and vegetables" = some i1)
    (h2 : t.header.indexOf? "life expectancy" = some i2)
    (hj1 : t.header.indexOf? "gdp per capita" = some j1)
    (hj3 : t.header.indexOf? "total population" = some j3)
    (hic : t.header.indexOf? "continent" = some ic)
    (hj5 : t.header.indexOf? "year" = some j5) :
    (∀ s e, lookup s = .error e → continentCell lookup (Value.vStr s) = .vNull) ∧
      (∀ r, r ∈ rowsOf (df_scatter t) ↔
        r ∈ t.rows ∧ r.getD i1 .vNull ≠ .vNull ∧ r.getD i2 .vNull ≠ .vNull) ∧
      (∀ r ∈ rowsOf (df_gapminder t), r.getD ic .vNull ≠ .vNull) := by
  refine ⟨?_, ?_, ?_⟩
  · intro s e he
    have hc : country_to_continent lookup (Value.vStr s) = none := by
      simp only [country_to_continent, he]
    simp only [continentCell, hc]
  · have hm : mapMo (fun c => t.header.indexOf? c) scatterSubset = some [i1, i2] := by
      simp only [scatterSubset, mapMo, h1, h2]
    have hd := dropna_ok_of_idxs scatterSubset t [i1, i2] hm
    intro r
    unfold df_scatter
    rw [hd]
    unfold rowsOf okTable
    simp only [List.mem_filter, List.all_cons, List.all_nil, Bool.and_eq_true,
      Bool.not_eq_true', decide_eq_false_iff_not, and_true]
  · have hm : mapMo (fun c => t.header.indexOf? c) bubbleSubset =
        some [j1, i2, j3, ic, j5] := by
      simp only [bubbleSubset, mapMo, h1, h2, hj1, hj3, hic, hj5]
    have hd := dropna_ok_of_idxs bubbleSubset t [j1, i2, j3, ic, j5] hm
    intro r hr
    unfold df_gapminder at hr
    rw [hd] at hr
    unfold rowsOf okTable at hr
    simp only [List.mem_filter, List.all_cons, List.all_nil, Bool.and_eq_true,
      Bool.not_eq_true', decide_eq_false_iff_not, and_true] at hr
    tauto

/-- Witness for `c2_continent_null_exclusion` at the concrete enriched
table `T2W` and the lookup `ExLookup`. -/
theorem c2_witness :
    (∀ s e, ExLookup s = .error e → continentCell ExLookup (Value.vStr s) = .vNull) ∧
      (∀ r, r ∈ rowsOf (df_scatter T2W) ↔
        r ∈ T2W.rows ∧ r.getD 6 .vNull ≠ .vNull ∧ r.getD 4 .vNull ≠ .vNull) ∧
      (∀ r ∈ rowsOf (df_gapminder T2W), r.getD 7 .vNull ≠ .vNull) :=
  c2_continent_null_exclusion ExLookup T2W 6 4 3 5 7 2 rfl rfl rfl rfl rfl rfl

/-! ### Claim C3 -/

/-- Claim C3, counterexample: `pd.to_numeric(col, errors='ignore')` is
column-at-a-time, not cell-by-cell.  In the table `T3` the `score` column
holds `"1"` (which parses) and `"abc"` (which does not); after the
Normalizer the column is unchanged — the cell `"1"` is still the text
`"1"`, not the number `1` — so no mixed text/numeric column arises. -/
theorem c3_counterexample :
    normalizeTable T3 = .ok (okTable (normalizeTable T3)) ∧
      getCol 2 (okTable (normalizeTable T3)).rows = [Value.vStr "1", Value.vStr "abc"] ∧
      parseNum "1" = some 1 ∧ Value.vStr "1" ≠ Value.vNum 1 := by
  decide

/-- Claim C3, amended: the numeric coercion of the non-`country`/`gender`
columns is all-or-nothing per column.  Every column of the Normalizer's
output either holds no text cell at all or is exactly the corresponding
column of the deduplicated input, unchanged; and `toNumericIgnore`
coerces every cell when all cells parse while returning the column
untouched when any cell fails. -/
theorem c3_column_coercion (t t' : Table) (h : normalizeTable t = .ok t') :
    (∀ j : ℕ, (∀ v ∈ getCol j t'.rows, v.isStr = false) ∨
        getCol j t'.rows = getCol j (dedupFirst t.rows)) ∧
      (∀ (cells : List Value) (v : Value), v ∈ cells → cellToNumeric v = none →
        toNumericIgnore cells = cells) ∧
      (∀ cells : List Value, colParses cells = true →
        toNumericIgnore cells = cells.map (fun v => (cellToNumeric v).getD v)) := by
  refine ⟨?_, ?_, ?_⟩
  · intro j
    obtain ⟨hhdr, rows1, hy, hrows⟩ := normalizeTable_ok_parts t t' h
    have hcolOk := coerceOtherCols_colOk (t.header.map clean_col)
      (List.range (t.header.map clean_col).length) rows1 j
    rw [hrows]
    unfold coerceOtherCols
    rcases hcolOk with hns | hsame
    · exact Or.inl hns
    · rw [hsame]
      cases hidx : (t.header.map clean_col).indexOf? "year" with
      | none =>
        rw [yearStep_ok_of_indexOf_none _ _ hidx] at hy
        injection hy with hy'
        rw [← hy']
        exact Or.inr rfl
      | some i =>
        rw [yearStep_eq_of_indexOf_some _ _ i hidx] at hy
        have hrows1 := coerceYearRows_ok_eq i (dedupFirst t.rows) rows1 hy
        by_cases hij : j = i
        · subst hij
          left
          have hcol := (normalizeTable_year_col t t' j h hidx).2
          rw [hrows] at hcol
          unfold coerceOtherCols at hcol
          rw [hsame] at hcol
          intro v hv
          exact isIntOrNull_not_isStr v (hcol v hv)
        · rw [hrows1]
          exact Or.inr (getCol_map_set_ne i j hij (dedupFirst t.rows) yearForce)
  · intro cells v hv hnone
    apply toNumericIgnore_of_not_colParses
    unfold colParses
    rw [List.all_eq_false]
    exact ⟨v, hv, by simp [hnone]⟩
  · intro cells hp
    unfold toNumericIgnore
    rw [if_pos hp]

/-- Witness for `c3_column_coercion` at the concrete table `T3`. -/
theorem c3_witness :
    (∀ j : ℕ, (∀ v ∈ getCol j (okTable (normalizeTable T3)).rows, v.isStr = false) ∨
        getCol j (okTable (normalizeTable T3)).rows = getCol j (dedupFirst T3.rows)) ∧
      (∀ (cells : List Value) (v : Value), v ∈ cells → cellToNumeric v = none →
        toNumericIgnore cells = cells) ∧
      (∀ cells : List Value, colParses cells = true →
        toNumericIgnore cells = cells.map (fun v => (cellToNumeric v).getD v)) :=
  c3_column_coercion T3 (okTable (normalizeTable T3)) (by decide)

/-! ### Claim C4 -/

/-- Claim C4, counterexample: in the code the gender Filter (line 46) runs
before the Geo-Enricher (line 47), not after.  On `T4` the normalized
table has two rows and no `continent` column — so the table the Filter
consumes is not continent-enriched — while the only continent-bearing
table of the pipeline, the enrichment output, has a single row: the
Geo-Enricher did not add `continent` to every row of the normalized
table. -/
theorem c4_counterexample :
    (okTable (df_both ExLookup T4)).rows.length = 1 ∧
      (okTable (normalizeTable T4)).rows.length = 2 ∧
      "continent" ∉ (okTable (normalizeTable T4)).header ∧
      (okTable (df_both ExLookup T4)).header = ["country", "gender", "continent"] := by
  decide

/-- Claim C4, amended: the stages run in the order Loader, Normalizer,
Filter, Geo-Enricher.  The Filter consumes the normalized table (which
carries no continent information), and the Geo-Enricher consumes the
Filter's output, appending a `continent` column to exactly the surviving
rows; hence every row of the final table passes the gender test. -/
theorem c4_stage_order (lookup : String → Except LookupFailure String)
    (t tn tf : Table) (ig ic : ℕ)
    (hn : normalizeTable t = .ok tn) (hf : filterBoth tn = .ok tf)
    (hg : tn.header.indexOf? "gender" = some ig)
    (hc : tf.header.indexOf? "country" = some ic) :
    df_both lookup t = addContinent lookup tf ∧
      (okTable (df_both lookup t)).header = tf.header ++ ["continent"] ∧
      (okTable (df_both lookup t)).rows =
        tf.rows.map (fun r => r ++ [continentCell lookup (r.getD ic .vNull)]) ∧
      ∀ r ∈ (okTable (df_both lookup t)).rows, r.getD ig .vNull = .vStr "Both sexes" := by
  have e1 : df_both lookup t = addContinent lookup tf := by
    unfold df_both
    simp only [hn, hf]
  have e2 := addContinent_ok_of_country lookup tf ic hc
  refine ⟨e1, ?_, ?_, ?_⟩
  · rw [e1, e2]; rfl
  · rw [e1, e2]; rfl
  · intro r hr
    rw [e1, e2] at hr
    unfold okTable at hr
    simp only [List.mem_map] at hr
    obtain ⟨r0, hr0, hreq⟩ := hr
    obtain ⟨_, hfr⟩ := filterBoth_ok_parts tn tf ig hg hf
    rw [hfr] at hr0
    have hpred := (List.mem_filter.mp hr0).2
    simp only [decide_eq_true_eq] at hpred
    have hlen : ig < r0.length := by
      by_contra hge
      rw [getD_of_length_le r0 ig .vNull (by omega)] at hpred
      exact Value.noConfusion hpred
    rw [← hreq, getD_append_left r0 _ ig .vNull hlen]
    exact hpred

/-- Witness for `c4_stage_order` at the concrete table `T4`. -/
theorem c4_witness :
    df_both ExLookup T4 = addContinent ExLookup (okTable (filterBoth (okTable (normalizeTable T4)))) ∧
      (okTable (df_both ExLookup T4)).header =
        (okTable (filterBoth (okTable (normalizeTable T4)))).header ++ ["continent"] ∧
      (okTable (df_both ExLookup T4)).rows =
        (okTable (filterBoth (okTable (normalizeTable T4)))).rows.map
          (fun r => r ++ [continentCell ExLookup (r.getD 0 .vNull)]) ∧
      ∀ r ∈ (okTable (df_both ExLookup T4)).rows, r.getD 1 .vNull = .vStr "Both sexes" :=
  c4_stage_order ExLookup T4 (okTable (normalizeTable T4))
    (okTable (filterBoth (okTable (normalizeTable T4)))) 1 0
    (by decide) (by decide) (by decide) (by decide)

/-! ### Claim C5 -/

/-- Claim C5, confirmed: for any lookup capability and any table with a
`country` column, the Geo-Enricher returns a table (it never propagates an
error), preserving the number of rows; each row gains a continent cell,
and whenever the row's country is a string on which the lookup fails —
with any failure variant — or is not a string at all, that cell is null. -/
theorem c5_lookup_failure_null (lookup : String → Except LookupFailure String)
    (t : Table) (i : ℕ) (hi : t.header.indexOf? "country" = some i) :
    ∃ te, addContinent lookup t = .ok te ∧
      te.header = t.header ++ ["continent"] ∧
      te.rows.length = t.rows.length ∧
      (∀ r ∈ t.rows, r ++ [continentCell lookup (r.getD i .vNull)] ∈ te.rows) ∧
      (∀ s e, lookup s = .error e → continentCell lookup (Value.vStr s) = .vNull) ∧
      (∀ v : Value, v.isStr = false → continentCell lookup v = .vNull) := by
  refine ⟨_, addContinent_ok_of_country lookup t i hi, rfl, ?_, ?_, ?_, ?_⟩
  · exact List.length_map _ _
  · intro r hr
    exact List.mem_map_of_mem _ hr
  · intro s e he
    have hc : country_to_continent lookup (Value.vStr s) = none := by
      simp only [country_to_continent, he]
    simp only [continentCell, hc]
  · intro v hv
    have hc : country_to_continent lookup v = none := by
      cases v with
      | vStr s => simp [Value.isStr] at hv
      | vNull => rfl
      | vNum q => rfl
      | vInt n => rfl
    simp only [continentCell, hc]

/-- Witness for `c5_lookup_failure_null` at the table `T5` and the
always-failing lookup `ExLookupFail`. -/
theorem c5_witness :
    ∃ te, addContinent ExLookupFail T5 = .ok te ∧
      te.header = T5.header ++ ["continent"] ∧
      te.rows.length = T5.rows.length ∧
      (∀ r ∈ T5.rows, r ++ [continentCell ExLookupFail (r.getD 0 .vNull)] ∈ te.rows) ∧
      (∀ s e, ExLookupFail s = .error e → continentCell ExLookupFail (Value.vStr s) = .vNull) ∧
      (∀ v : Value, v.isStr = false → continentCell ExLookupFail v = .vNull) :=
  c5_lookup_failure_null ExLookupFail T5 0 rfl

/-! ### Claim C6 -/

theorem sortedYears_ok_parts (t : Table) (ys : List ℤ) (h : sortedYears t = .ok ys) :
    ∃ i allYs, t.header.indexOf? "year" = some i ∧
      mapMo (fun v => match v with | Value.vInt n => some n | _ => none) (getCol i t.rows) =
        some allYs ∧
      ys = sortInts (dedupFirst allYs) := by
  unfold sortedYears at h
  cases hi : t.header.indexOf? "year" with
  | none =>
    simp only [hi] at h
    exact absurd h (by simp)
  | some i =>
    simp only [hi] at h
    cases hm : mapMo (fun v => match v with | Value.vInt n => some n | _ => none)
        (getCol i t.rows) with
    | none =>
      simp only [hm] at h
      exact absurd h (by simp)
    | some allYs =>
      simp only [hm, Except.ok.injEq] at h
      exact ⟨i, allYs, rfl, hm, h.symm⟩

theorem buildBubble_ok_parts (t : Table) (c : BubbleChart) (h : buildBubble t = .ok c) :
    ∃ d y0 ys, df_gapminder t = .ok d ∧ sortedYears d = .ok (y0 :: ys) ∧
      c = ⟨d, y0, (y0 :: ys).getLastD 0, 1, y0⟩ := by
  unfold buildBubble at h
  cases hd : df_gapminder t with
  | error e =>
    simp only [hd] at h
    exact absurd h (by simp)
  | ok d =>
    simp only [hd] at h
    cases hy : sortedYears d with
    | error e =>
      simp only [hy] at h
      exact absurd h (by simp)
    | ok ys0 =>
      simp only [hy] at h
      cases ys0 with
      | nil => simp at h
      | cons y0 ys =>
        simp only [Except.ok.injEq] at h
        exact ⟨d, y0, ys, rfl, hy, h.symm⟩

theorem getLastD_cons_mem (a : ℤ) (l : List ℤ) : (a :: l).getLastD 0 ∈ a :: l := by
  induction l generalizing a with
  | nil => simp
  | cons b l ih =>
    have he : (a :: b :: l).getLastD 0 = (b :: l).getLastD 0 := by
      simp [List.getLastD_cons]
    rw [he]
    exact List.mem_cons_of_mem a (ih b)

theorem mem_sliderValues (c : BubbleChart) (y : ℤ) :
    y ∈ sliderValues c ↔ c.sliderMin ≤ y ∧ y ≤ c.sliderMax := by
  constructor
  · intro hy
    obtain ⟨k, hk, he⟩ := List.mem_map.mp hy
    have hkr := List.mem_range.mp hk
    have hcast := Int.lt_toNat.mp hkr
    have hk0 := Int.natCast_nonneg k
    rw [← he]
    omega
  · rintro ⟨h1, h2⟩
    have h3 : (((y - c.sliderMin).toNat : ℕ) : ℤ) = y - c.sliderMin :=
      Int.toNat_of_nonneg (by omega)
    apply List.mem_map.mpr
    refine ⟨(y - c.sliderMin).toNat, List.mem_range.mpr (Int.lt_toNat.mpr ?_), ?_⟩
    · rw [h3]
      omega
    · rw [h3]
      omega

/-- Claim C6, amended: the year control of the bubble chart is a range
control with step 1 whose default is the minimum year present in the
chart's data; its endpoints are the minimum and maximum years present,
but the selectable values are all the integers between them — including
years absent from the data — not just the distinct years present.
Selecting a year renders exactly the rows whose year equals it. -/
theorem c6_slider_range (t : Table) (c : BubbleChart) (h : buildBubble t = .ok c) :
    c.sliderStep = 1 ∧
      c.sliderDefault = c.sliderMin ∧
      c.sliderMin ∈ dataYears c ∧
      c.sliderMax ∈ dataYears c ∧
      (∀ y ∈ dataYears c, c.sliderMin ≤ y ∧ y ≤ c.sliderMax) ∧
      (∀ y : ℤ, y ∈ sliderValues c ↔ c.sliderMin ≤ y ∧ y ≤ c.sliderMax) ∧
      (∀ (i : ℕ) (y : ℤ), c.data.header.indexOf? "year" = some i →
        ∀ r, r ∈ yearFilteredRows c y ↔ r ∈ c.data.rows ∧ r.getD i .vNull = .vInt y) := by
  obtain ⟨d, y0, ys, hd, hy, hc⟩ := buildBubble_ok_parts t c h
  obtain ⟨i, allYs, hi, hm, hsort⟩ := sortedYears_ok_parts d (y0 :: ys) hy
  subst hc
  have hdy : dataYears ⟨d, y0, (y0 :: ys).getLastD 0, 1, y0⟩ = allYs := by
    simp only [dataYears, hi]
    exact mapMo_some_filterMap _ _ _ hm
  have hmem_chain : ∀ z : ℤ, z ∈ y0 :: ys ↔ z ∈ allYs := by
    intro z
    rw [hsort, mem_sortInts, mem_dedupFirst]
  have hpair : (y0 :: ys).Pairwise (fun p q => p ≤ q) := by
    rw [hsort]
    exact sortInts_pairwise _
  refine ⟨rfl, rfl, ?_, ?_, ?_, ?_, ?_⟩
  · rw [hdy]
    exact (hmem_chain y0).mp (by simp)
  · rw [hdy]
    exact (hmem_chain _).mp (getLastD_cons_mem y0 ys)
  · intro y hymem
    rw [hdy] at hymem
    have hys : y ∈ y0 :: ys := (hmem_chain y).mpr hymem
    exact ⟨pairwise_head_le y0 ys hpair y hys, pairwise_le_getLastD y0 ys hpair y hys⟩
  · intro y
    exact mem_sliderValues _ y
  · intro i' y hi' r
    have hii : i' = i := by
      have := hi'.symm.trans hi
      injection this
    subst hii
    simp only [yearFilteredRows, hi', List.mem_filter, decide_eq_true_eq]

/-- Claim C6, counterexample: on the table `T6`, whose years are 1990 and
2000 only, the built range control offers the year 1991, which is not
among the distinct years present in the data — the control is bound to the
whole integer range `[min, max]`, not to the distinct sorted set of years
present. -/
theorem c6_counterexample :
    buildBubble T6 = .ok (okBubble (buildBubble T6)) ∧
      (1991 : ℤ) ∈ sliderValues (okBubble (buildBubble T6)) ∧
      (1991 : ℤ) ∉ dataYears (okBubble (buildBubble T6)) := by
  decide

/-- Witness for `c6_slider_range` at the concrete table `T6`. -/
theorem c6_witness :
    (okBubble (buildBubble T6)).sliderStep = 1 ∧
      (okBubble (buildBubble T6)).sliderDefault = (okBubble (buildBubble T6)).sliderMin ∧
      (okBubble (buildBubble T6)).sliderMin ∈ dataYears (okBubble (buildBubble T6)) ∧
      (okBubble (buildBubble T6)).sliderMax ∈ dataYears (okBubble (buildBubble T6)) ∧
      (∀ y ∈ dataYears (okBubble (buildBubble T6)),
        (okBubble (buildBubble T6)).sliderMin ≤ y ∧
          y ≤ (okBubble (buildBubble T6)).sliderMax) ∧
      (∀ y : ℤ, y ∈ sliderValues (okBubble (buildBubble T6)) ↔
        (okBubble (buildBubble T6)).sliderMin ≤ y ∧
          y ≤ (okBubble (buildBubble T6)).sliderMax) ∧
      (∀ (i : ℕ) (y : ℤ),
        (okBubble (buildBubble T6)).data.header.indexOf? "year" = some i →
        ∀ r, r ∈ yearFilteredRows (okBubble (buildBubble T6)) y ↔
          r ∈ (okBubble (buildBubble T6)).data.rows ∧ r.getD i .vNull = .vInt y) :=
  c6_slider_range T6 (okBubble (buildBubble T6)) (by decide)

/-! ### Claim C7 -/

/-- Claim C7, counterexample: `T7` has two rows that differ only in the
textual form of the year (`"2010"` vs `"2010.0"`), so duplicate removal
(which runs before coercion) keeps both, and the year coercion then makes
them equal.  The first run therefore outputs a two-row table, and a second
run of the Normalizer removes the now-exact duplicate, producing a
different (one-row) table: the Normalizer is not idempotent. -/
theorem c7_counterexample :
    normalizeTable T7 = .ok (okTable (normalizeTable T7)) ∧
      (okTable (normalizeTable T7)).rows.length = 2 ∧
      normalizeTable (okTable (normalizeTable T7)) =
        .ok (okTable (normalizeTable (okTable (normalizeTable T7)))) ∧
      (okTable (normalizeTable (okTable (normalizeTable T7)))).rows.length = 1 ∧
      okTable (normalizeTable (okTable (normalizeTable T7))) ≠
        okTable (normalizeTable T7) := by
  decide

/-- Claim C7, amended: on an output of the Normalizer whose rows are
already duplicate-free — that is, whenever the first run's coercions did
not make previously distinct rows equal — a second run reproduces the
table exactly: lowercasing the labels, duplicate removal, the year
coercion and the numeric coercion are all identities there. -/
theorem c7_normalizer_idem (t t' : Table) (h : normalizeTable t = .ok t')
    (hnd : t'.rows.Nodup) : normalizeTable t' = .ok t' :=
  normalizeTable_idem t t' h hnd

/-- Witness for `c7_normalizer_idem` at the concrete table `T4`. -/
theorem c7_witness :
    normalizeTable T4 = .ok (okTable (normalizeTable T4)) ∧
      (okTable (normalizeTable T4)).rows.Nodup ∧
      normalizeTable (okTable (normalizeTable T4)) = .ok (okTable (normalizeTable T4)) :=
  ⟨by decide, by decide,
    c7_normalizer_idem T4 (okTable (normalizeTable T4)) (by decide) (by decide)⟩

/-! ### Claim C8 -/

/-- Claim C8, counterexample: duplicate removal runs before the type
coercions, so coercion can re-create equal rows; on `T7` the Normalizer's
output contains two exactly equal rows — equal rows do survive
normalization. -/
theorem c8_counterexample :
    normalizeTable T7 = .ok (okTable (normalizeTable T7)) ∧
      ¬ (okTable (normalizeTable T7)).rows.Nodup := by
  decide

/-- Claim C8, amended: the duplicate-removal stage itself (line 29,
embedded as `dedupFirst`) removes exact duplicates under full-row
equality, keeping the first occurrence of each distinct row and
preserving relative order: its output is a duplicate-free sublist of the
input containing exactly the input's rows, listed in the order of their
first occurrences.  (Equal rows can still be re-created by the later
coercions, as the counterexample shows.) -/
theorem c8_drop_duplicates (rows : List (List Value)) :
    (dedupFirst rows).Nodup ∧
      (dedupFirst rows).Sublist rows ∧
      (∀ r, r ∈ dedupFirst rows ↔ r ∈ rows) ∧
      (dedupFirst rows).Pairwise (fun a b => firstIdx a rows < firstIdx b rows) :=
  ⟨nodup_dedupFirst rows, sublist_dedupFirst rows,
    fun r => mem_dedupFirst rows r, pairwise_firstIdx_dedupFirst rows⟩

/-! ### Claim C9 -/

/-- Claim C9, counterexample: a year value that parses as the non-integral
number 2010.5 does not become null — the `astype('Int64')` cast refuses
the unsafe conversion and the Normalizer fails with a fatal cast error,
aborting the pipeline instead of substituting null per-row. -/
theorem c9_counterexample :
    normalizeTable T9 = .error .castError ∧
      (parseNum "2010.5").map Rat.num = some 4021 ∧
      (parseNum "2010.5").map Rat.den = some 2 := by
  decide

/-- Claim C9, amended: when the Normalizer completes, the year column is
the cell-wise coercion of the (deduplicated) input year column and holds
only integers and nulls: a cell that parses as an integer becomes that
integer, a cell that fails to parse becomes null (per-row, non-fatal), and
a cell that parses as a non-integral number raises the fatal cast error. -/
theorem c9_year_column (t t' : Table) (i : ℕ) (h : normalizeTable t = .ok t')
    (hi : (t.header.map clean_col).indexOf? "year" = some i) :
    getCol i t'.rows = (getCol i (dedupFirst t.rows)).map yearForce ∧
      (∀ v ∈ getCol i t'.rows, isIntOrNull v) ∧
      (∀ s, parseNum s = none → yearCoerce (Value.vStr s) = .ok .vNull) ∧
      (∀ s q, parseNum s = some q → q.den = 1 →
        yearCoerce (Value.vStr s) = .ok (.vInt q.num)) ∧
      (∀ s q, parseNum s = some q → q.den ≠ 1 →
        yearCoerce (Value.vStr s) = .error .castError) := by
  obtain ⟨hmap, hint⟩ := normalizeTable_year_col t t' i h hi
  refine ⟨hmap, hint, ?_, ?_, ?_⟩
  · intro s hs
    simp only [yearCoerce, hs]
  · intro s q hs hq
    simp only [yearCoerce, hs, if_pos hq]
  · intro s q hs hq
    simp only [yearCoerce, hs, if_neg hq]

/-- Witness for `c9_year_column` at the concrete table `T7`. -/
theorem c9_witness :
    getCol 2 (okTable (normalizeTable T7)).rows =
        (getCol 2 (dedupFirst T7.rows)).map yearForce ∧
      (∀ v ∈ getCol 2 (okTable (normalizeTable T7)).rows, isIntOrNull v) ∧
      (∀ s, parseNum s = none → yearCoerce (Value.vStr s) = .ok .vNull) ∧
      (∀ s q, parseNum s = some q → q.den = 1 →
        yearCoerce (Value.vStr s) = .ok (.vInt q.num)) ∧
      (∀ s q, parseNum s = some q → q.den ≠ 1 →
        yearCoerce (Value.vStr s) = .error .castError) :=
  c9_year_column T7 (okTable (normalizeTable T7)) 2 (by decide) (by decide)

/-! ### Claim C10 -/

/-- Claim C10, confirmed: whenever the bubble chart's null-dropping leaves
zero rows, the set of years present is empty and the builder fails with
the out-of-bounds access `years[0]` on the empty sorted year list (at the
`print` of line 104), before any chart document is produced; the result is
the `IndexError` — not a missing-column `KeyError` and not a chart. -/
theorem c10_empty_rows_index_error (t d : Table) (h : df_gapminder t = .ok d)
    (hrows : d.rows = []) : buildBubble t = .error .indexError := by
  obtain ⟨idxs, him⟩ : ∃ idxs,
      mapMo (fun c => t.header.indexOf? c) bubbleSubset = some idxs := by
    have h' := h
    unfold df_gapminder dropna at h'
    cases him : mapMo (fun c => t.header.indexOf? c) bubbleSubset with
    | none =>
      simp only [him] at h'
      exact absurd h' (by simp)
    | some idxs => exact ⟨idxs, rfl⟩
  have hhdr : d.header = t.header :=
    (dropna_ok_parts bubbleSubset t d idxs him h).1
  have hysome : (t.header.indexOf? "year").isSome = true :=
    mapMo_some_forall_isSome _ bubbleSubset idxs him "year" (by simp [bubbleSubset])
  obtain ⟨iy, hiy⟩ := Option.isSome_iff_exists.mp hysome
  have hiyd : d.header.indexOf? "year" = some iy := by rw [hhdr]; exact hiy
  have hys : sortedYears d = .ok [] := by
    unfold sortedYears
    simp only [hiyd, hrows]
    rfl
  unfold buildBubble
  simp only [h, hys]

/-- Witness for `c10_empty_rows_index_error` at the concrete table `T10`,
whose only row is dropped because its continent is null. -/
theorem c10_witness :
    df_gapminder T10 = .ok (okTable (df_gapminder T10)) ∧
      (okTable (df_gapminder T10)).rows = [] ∧
      buildBubble T10 = .error .indexError :=
  ⟨by decide, by decide,
    c10_empty_rows_index_error T10 (okTable (df_gapminder T10)) (by decide) (by decide)⟩
